import Mathlib

set_option maxHeartbeats 1000000

/-!
Shallow embedding of `src/views/flutter_outline_view.ts` (Dart-Code's Flutter
outline tree view).  JavaScript optional fields become `Option`s; JavaScript
truthiness of a string (defined and non-empty) and of a number (defined and
non-zero) is made explicit.  Host services (the VS Code tree view, the
analysis server and the code-action provider) are parameters: the code-action
provider is an oracle function from a range to a list of commands/actions, and
the effects of `update` (the context-key value and the fired tree-change
events) are returned as data.
-/

namespace FlutterOutlineView

/-- A zero-based line/character position (`vscode.Position`). -/
structure Position where
  line : Nat
  character : Nat
deriving DecidableEq, Repr

/-- A range between two positions (`vscode.Range`); `stop` is the API's
`end`, renamed because `end` is a Lean keyword. -/
structure Range where
  start : Position
  stop : Position
deriving DecidableEq, Repr

/-- The part of `vscode.TextDocument` the view uses: the file name, the
closed flag, and the offset/position conversions. -/
structure TextDocument where
  fileName : String
  isClosed : Bool
  offsetAt : Position → Nat
  positionAt : Nat → Position

/-- The part of `vscode.TextEditor` the view uses. -/
structure TextEditor where
  document : TextDocument

/-- The part of `vscode.Selection` the view uses (its `start` position). -/
structure Selection where
  start : Position

/-- The fields of the analysis-server `Element` that `getLabel` reads. -/
structure DartElement where
  name : String
  typeParameters : Option String
  parameters : Option String
  returnType : Option String
deriving DecidableEq

/-- The analysis-server `FlutterOutline` node.  `length` is an `Option`
because the JavaScript runtime value may be absent; a value of `some 0`
and `none` are both falsy in the source's truthiness tests.  The fields
not used by the view (`codeOffset`, `codeLength`, `attributes`, ...) are
omitted. -/
inductive FlutterOutline : Type where
  | mk (kind : String) (offset : Nat) (length : Option Nat)
      (dartElement : Option DartElement)
      (variableName : Option String) (className : Option String)
      (label : Option String)
      (children : Option (List FlutterOutline))

def FlutterOutline.kind : FlutterOutline → String
  | .mk k _ _ _ _ _ _ _ => k

def FlutterOutline.offset : FlutterOutline → Nat
  | .mk _ o _ _ _ _ _ _ => o

def FlutterOutline.length : FlutterOutline → Option Nat
  | .mk _ _ l _ _ _ _ _ => l

def FlutterOutline.dartElement : FlutterOutline → Option DartElement
  | .mk _ _ _ d _ _ _ _ => d

def FlutterOutline.variableName : FlutterOutline → Option String
  | .mk _ _ _ _ v _ _ _ => v

def FlutterOutline.className : FlutterOutline → Option String
  | .mk _ _ _ _ _ c _ _ => c

def FlutterOutline.label : FlutterOutline → Option String
  | .mk _ _ _ _ _ _ l _ => l

def FlutterOutline.children : FlutterOutline → Option (List FlutterOutline)
  | .mk _ _ _ _ _ _ _ c => c

/-- The `FlutterOutlineNotification` from the analysis server: the file it
is for and the root outline node (`outline` is required by the protocol). -/
structure FlutterOutlineNotification where
  file : String
  outline : FlutterOutline

/-- `vscode.CodeActionKind`: a string value. -/
structure CodeActionKind where
  value : String
deriving DecidableEq

/-- The part of `vscode.CodeAction` the view reads: its optional kind. -/
structure CodeAction where
  kind : Option CodeActionKind
deriving DecidableEq

/-- A result of `vscode.executeCodeActionProvider`: either a bare `Command`
(whose payload the view never reads) or a `CodeAction`. -/
inductive CmdOrAction where
  | command
  | codeAction (ca : CodeAction)
deriving DecidableEq

/-- JavaScript truthiness of an optional number: defined and non-zero. -/
def truthyNum : Option Nat → Bool
  | some n => n != 0
  | none => false

/-- Characters dropped by JavaScript `String.prototype.trim` from each end
(modelled by `Char.isWhitespace`). -/
def trimCharList (cs : List Char) : List Char :=
  ((cs.dropWhile Char.isWhitespace).reverse.dropWhile Char.isWhitespace).reverse

/-- Model of JavaScript `String.prototype.trim`: strip leading and trailing
whitespace. -/
def jsTrim (s : String) : String := ⟨trimCharList s.data⟩

/-- `vscode.TreeItemCollapsibleState`, restricted to the two values the
source uses (`None` and `Expanded`). -/
inductive CollapsibleState where
  | noExpand
  | expanded
deriving DecidableEq, Repr

/-- A `FlutterWidgetItem` tree item: its parent, its outline node, the
attached quick fixes, and the computed label and collapsible state.  The
host-UI-only fields of the source constructor (`command`, `iconPath`,
`tooltip`, `contextValue`) are not modelled: no claim reads them and they
only feed the host editor. -/
inductive FlutterWidgetItem : Type where
  | mk (parent : Option FlutterWidgetItem) (outline : FlutterOutline)
      (fixes : List CodeAction) (label : String)
      (collapsibleState : CollapsibleState)

def FlutterWidgetItem.parent : FlutterWidgetItem → Option FlutterWidgetItem
  | .mk p _ _ _ _ => p

def FlutterWidgetItem.outline : FlutterWidgetItem → FlutterOutline
  | .mk _ o _ _ _ => o

def FlutterWidgetItem.fixes : FlutterWidgetItem → List CodeAction
  | .mk _ _ f _ _ => f

def FlutterWidgetItem.label : FlutterWidgetItem → String
  | .mk _ _ _ l _ => l

def FlutterWidgetItem.collapsibleState : FlutterWidgetItem → CollapsibleState
  | .mk _ _ _ _ s => s

/-- `FlutterWidgetItem.getLabel` from the source: build the label by
appending, in order, `" " + dartElement.name`, then `typeParameters`,
`parameters` and `" → " + returnType` when truthy, then `" " +
variableName`, `" " + className` and `" " + label` when truthy, and
finally trim the result. -/
def FlutterWidgetItem.getLabel (outline : FlutterOutline) : String :=
  let label := ""
  let label :=
    match outline.dartElement with
    | none => label
    | some de =>
      let label := label ++ " " ++ de.name
      let label :=
        match de.typeParameters with
        | some tp => if !tp.isEmpty then label ++ tp else label
        | none => label
      let label :=
        match de.parameters with
        | some ps => if !ps.isEmpty then label ++ ps else label
        | none => label
      match de.returnType with
      | some rt => if !rt.isEmpty then label ++ " → " ++ rt else label
      | none => label
  let label :=
    match outline.variableName with
    | some vn => if !vn.isEmpty then label ++ " " ++ vn else label
    | none => label
  let label :=
    match outline.className with
    | some cn => if !cn.isEmpty then label ++ " " ++ cn else label
    | none => label
  let label :=
    match outline.label with
    | some lb => if !lb.isEmpty then label ++ " " ++ lb else label
    | none => label
  jsTrim label

/-- `isWidget` from the source: every outline node whose kind is not
`DART_ELEMENT`. -/
def isWidget (outline : FlutterOutline) : Bool :=
  outline.kind != "DART_ELEMENT"

/-- The `FlutterWidgetItem` constructor from the source: store the parent,
outline and fixes, compute the label with `getLabel`, and expand the item
exactly when the outline's children array is present and non-empty. -/
def FlutterWidgetItem.make (parent : Option FlutterWidgetItem)
    (outline : FlutterOutline) (fixes : List CodeAction) : FlutterWidgetItem :=
  .mk parent outline fixes (FlutterWidgetItem.getLabel outline)
    (match outline.children with
     | some cs => if cs.isEmpty then .noExpand else .expanded
     | none => .noExpand)

/-- The code-action provider (`vscode.executeCodeActionProvider`), as an
oracle from the requested range to the returned commands/actions. -/
def FixOracle := Range → List CmdOrAction

/-- `getFixes` from the source: request code actions at the zero-length
range at the outline node's offset. -/
def getFixes (oracle : FixOracle) (editor : TextEditor)
    (outline : FlutterOutline) : List CmdOrAction :=
  let pos := editor.document.positionAt outline.offset
  oracle ⟨pos, pos⟩

/-- The `instanceof vs.CodeAction` test on a returned result. -/
def asCodeAction : CmdOrAction → Option CodeAction
  | .codeAction ca => some ca
  | .command => none

/-- The `ca.kind && ca.kind.value` truthiness test: the kind is present and
its value is non-empty. -/
def truthyKind (ca : CodeAction) : Bool :=
  match ca.kind with
  | some k => !k.value.isEmpty
  | none => false

/-- The fixes attached to the item built for child `c` in `getChildren`:
request fixes only when `isWidget c` (else the empty list), then keep only
the `CodeAction` instances whose kind value is truthy. -/
def childFixes (oracle : FixOracle) (ed : TextEditor)
    (c : FlutterOutline) : List CodeAction :=
  let fixes := if isWidget c then getFixes oracle ed c else []
  (fixes.filterMap asCodeAction).filter truthyKind

/-- The `treeNodesByLine` lookup: a partial map from lines to the items
stored for that line (`none` models a missing, hence falsy, entry). -/
def LineMap := Nat → Option (List FlutterWidgetItem)

def LineMap.empty : LineMap := fun _ => none

/-- `if (!map[line]) map[line] = []; map[line].push(node)` from the source. -/
def LineMap.push (m : LineMap) (line : Nat) (node : FlutterWidgetItem) : LineMap :=
  fun l => if l = line then some ((m line).getD [] ++ [node]) else m l

/-- The mutable state of a `FlutterOutlineProvider`: the tracked editor, the
last stored outline notification, the per-line item map, and the fire time
of the pending debounced update (`none` when no update is scheduled). -/
structure ProviderState where
  activeEditor : Option TextEditor
  flutterOutline : Option FlutterOutlineNotification
  treeNodesByLine : LineMap
  updateTimeout : Option Nat

/-- The `registerForFlutterOutline` callback: when there is an active editor
and the notification's file equals its document's file name, store the
notification, clear the per-line map, cancel any pending update
(`clearTimeout`) and schedule a new one 200 ms from `now`; otherwise leave
the state untouched. -/
def handleFlutterOutline (now : Nat) (n : FlutterOutlineNotification)
    (st : ProviderState) : ProviderState :=
  match st.activeEditor with
  | some ed =>
    if n.file = ed.document.fileName then
      { st with
        flutterOutline := some n
        treeNodesByLine := LineMap.empty
        updateTimeout := some (now + 200) }
    else st
  | none => st

/-- Folding a burst of timed notifications through the notification
handler. -/
def handleBurst (st : ProviderState)
    (burst : List (Nat × FlutterOutlineNotification)) : ProviderState :=
  burst.foldl (fun s p => handleFlutterOutline p.1 p.2 s) st

/-- The observable effect of running `update`: the value written to the
`dart-code:showFlutterOutline` context key, and the payloads of the fired
`onDidChangeTreeData` events (`none` is `fire()` with no element, i.e. the
whole tree). -/
structure UpdateEffect where
  treeVisibleContext : Bool
  firedEvents : List (Option FlutterWidgetItem)

/-- `update` from the source: hide the tree (context key `false`, no event)
when there is no stored outline, no active editor, the outline's file is
not the active document's file name, or the outline root has no truthy
non-empty children array; otherwise show the tree and fire one whole-tree
change event (`refresh` calls `fire()` with no element).  The source's
defensive `!this.flutterOutline.outline` test is omitted: the protocol
declares `outline` required, so the model makes it a plain field. -/
def update (st : ProviderState) : UpdateEffect :=
  match st.flutterOutline, st.activeEditor with
  | some n, some ed =>
    if n.file = ed.document.fileName then
      match n.outline.children with
      | some cs => if cs.isEmpty then ⟨false, []⟩ else ⟨true, [none]⟩
      | none => ⟨false, []⟩
    else ⟨false, []⟩
  | _, _ => ⟨false, []⟩

/-- `item.outline.offset < offset && item.outline.offset +
item.outline.length > offset` from `highlightNodeAt`.  When `length` is
absent the JavaScript sum is `NaN` and the comparison is false. -/
def strictlyContainsOffset (o : FlutterOutline) (off : Nat) : Bool :=
  decide (o.offset < off) &&
    (match o.length with
     | some len => decide (off < o.offset + len)
     | none => false)

/-- `highlightNodeAt` from the source: return the node the tree view
reveals for a cursor position, or `none` when nothing is revealed.  When
the per-line map has no entry for the line, return before touching the
document; otherwise convert the position to an offset and reveal the first
stored item on that line that strictly contains it. -/
def highlightNodeAt (st : ProviderState) (pos : Position) :
    Option FlutterWidgetItem :=
  match st.treeNodesByLine pos.line with
  | none => none
  | some items =>
    match st.activeEditor with
    | none => none
    | some ed =>
      let off := ed.document.offsetAt pos
      items.find? (fun item => strictlyContainsOffset item.outline off)

/-- The `onDidChangeTextEditorSelection` subscription: with a non-empty
selection list, highlight the node at the first selection's start;
otherwise do nothing. -/
def handleSelectionChange (st : ProviderState) (selections : List Selection) :
    Option FlutterWidgetItem :=
  match selections with
  | [] => none
  | s :: _ => highlightNodeAt st s.start

/-- The loop body of `getChildren` over the outline's children: for each
child build the item (with its filtered fixes), append it to the returned
list and push it into the per-line map at the line of its offset, all only
while there is an open active editor.  (When the editor is absent or its
document closed, the source pushes nothing and records nothing; the
fix request it may still issue has no modelled effect.) -/
def buildChildren (oracle : FixOracle) (editor : Option TextEditor)
    (element : Option FlutterWidgetItem) (m : LineMap) :
    List FlutterOutline → List FlutterWidgetItem × LineMap
  | [] => ([], m)
  | c :: rest =>
    match editor with
    | some ed =>
      if ed.document.isClosed then
        buildChildren oracle editor element m rest
      else
        let node := FlutterWidgetItem.make element c (childFixes oracle ed c)
        let line := (ed.document.positionAt c.offset).line
        let m2 := m.push line node
        let res := buildChildren oracle editor element m2 rest
        (node :: res.1, res.2)
    | none => buildChildren oracle editor element m rest

/-- `getChildren` from the source: take the element's outline (or the
stored notification's root when no element is given); when the outline is
present with a truthy children array and a truthy length, build the child
items; otherwise return the empty list.  Returns the children together
with the provider state (whose `treeNodesByLine` the loop extends). -/
def getChildren (oracle : FixOracle) (st : ProviderState)
    (element : Option FlutterWidgetItem) :
    List FlutterWidgetItem × ProviderState :=
  let outlineOpt : Option FlutterOutline :=
    match element with
    | some el => some el.outline
    | none =>
      match st.flutterOutline with
      | some n => some n.outline
      | none => none
  match outlineOpt with
  | some outline =>
    match outline.children with
    | some cs =>
      if truthyNum outline.length then
        let res := buildChildren oracle st.activeEditor element st.treeNodesByLine cs
        (res.1, { st with treeNodesByLine := res.2 })
      else ([], st)
    | none => ([], st)
  | none => ([], st)

/-- `getParent` from the source. -/
def getParent (element : FlutterWidgetItem) : Option FlutterWidgetItem :=
  element.parent

/-- The provider-state-changing entry points a host session interleaves:
an outline notification at a given time, or a children query for an
element (or for the root, `none`). -/
inductive OutlineEvent where
  | notify (now : Nat) (n : FlutterOutlineNotification)
  | childrenQuery (element : Option FlutterWidgetItem)

def applyEvent (oracle : FixOracle) (st : ProviderState) :
    OutlineEvent → ProviderState
  | .notify t n => handleFlutterOutline t n st
  | .childrenQuery e => (getChildren oracle st e).2

def applyEvents (oracle : FixOracle) (st : ProviderState)
    (es : List OutlineEvent) : ProviderState :=
  es.foldl (applyEvent oracle) st

/-!  Specification-side definitions: these restate conditions in the words
of the specification's claims, to be compared with the source-derived
definitions above. -/

/-- Strict containment as the specification words it:
`outline.offset < offset` and `offset < outline.offset + outline.length`
(an absent length is totalised to `0`, which makes the conjunction
unsatisfiable, matching the source's `NaN` comparison). -/
def containsStrictly (o : FlutterOutline) (off : Nat) : Bool :=
  decide (o.offset < off) && decide (off < o.offset + o.length.getD 0)

/-- The hide condition as the specification words it: no stored outline,
no active editor, a file mismatch, or an outline root with no children. -/
def updateHides (st : ProviderState) : Prop :=
  st.flutterOutline = none ∨ st.activeEditor = none ∨
    (∃ n ed, st.flutterOutline = some n ∧ st.activeEditor = some ed ∧
      (n.file ≠ ed.document.fileName ∨ n.outline.children = none ∨
        n.outline.children = some []))

/-- Space-separated concatenation of a list of label parts. -/
def joinSpaceSeparated : List String → String
  | [] => ""
  | [p] => p
  | p :: rest => p ++ " " ++ joinSpaceSeparated rest

/-- The dart-element part of the label as the specification words it: the
name followed directly by the type parameters and parameters when present
and by `" → "` plus the return type when present. -/
def dartElementLabel (de : DartElement) : String :=
  de.name
    ++ (match de.typeParameters with
        | some tp => if !tp.isEmpty then tp else ""
        | none => "")
    ++ (match de.parameters with
        | some ps => if !ps.isEmpty then ps else ""
        | none => "")
    ++ (match de.returnType with
        | some rt => if !rt.isEmpty then " → " ++ rt else ""
        | none => "")

/-- The label parts as the specification words them: the dart-element part,
then the variable name, class name and label fields when present. -/
def labelParts (o : FlutterOutline) : List String :=
  (match o.dartElement with
   | some de => [dartElementLabel de]
   | none => [])
  ++ (match o.variableName with
      | some vn => if !vn.isEmpty then [vn] else []
      | none => [])
  ++ (match o.className with
      | some cn => if !cn.isEmpty then [cn] else []
      | none => [])
  ++ (match o.label with
      | some lb => if !lb.isEmpty then [lb] else []
      | none => [])

/-- The tree-item label as the specification words it: the parts joined
space-separated, with the final result trimmed. -/
def getLabelSpec (o : FlutterOutline) : String :=
  jsTrim (joinSpaceSeparated (labelParts o))

/-- The per-line map invariant: every item stored under key `L` sits on
line `L` of the active editor's document. -/
def lineMapInvariant (st : ProviderState) : Prop :=
  ∀ L items, st.treeNodesByLine L = some items →
    ∀ item ∈ items, ∃ ed, st.activeEditor = some ed ∧
      (ed.document.positionAt item.outline.offset).line = L

/-!  Concrete fixtures used to witness the theorems below on closed
inputs.  The document puts character `c` of line `l` at offset
`10 * l + c`. -/

def docA : TextDocument where
  fileName := "/a.dart"
  isClosed := false
  offsetAt := fun p => 10 * p.line + p.character
  positionAt := fun off => ⟨off / 10, off % 10⟩

def edA : TextEditor := ⟨docA⟩

/-- A widget node on line 1 spanning offsets 12–17. -/
def outlineChild1 : FlutterOutline :=
  .mk "NEW_INSTANCE" 12 (some 5) none none (some "Center") none none

/-- A non-widget (dart element) node on line 1 spanning offsets 13–16. -/
def outlineChild2 : FlutterOutline :=
  .mk "DART_ELEMENT" 13 (some 3)
    (some ⟨"build", none, some "(BuildContext context)", some "Widget"⟩)
    none none none none

/-- A root outline holding the two children above. -/
def outlineRoot : FlutterOutline :=
  .mk "COMPILATION_UNIT" 0 (some 30) none none none none
    (some [outlineChild1, outlineChild2])

/-- A widget node with an absent source length but a non-empty children
array. -/
def outlineNoLen : FlutterOutline :=
  .mk "NEW_INSTANCE" 0 none none none none none (some [outlineChild1])

def noteA : FlutterOutlineNotification := ⟨"/a.dart", outlineRoot⟩

def noteA2 : FlutterOutlineNotification := ⟨"/a.dart", outlineChild1⟩

def noteB : FlutterOutlineNotification := ⟨"/b.dart", outlineChild1⟩

/-- A code-action oracle returning one bare command, one action with a
truthy kind, one with no kind and one with an empty kind value. -/
def oracleEx : FixOracle := fun _ =>
  [.command,
   .codeAction ⟨some ⟨"refactor.flutter.wrap.center"⟩⟩,
   .codeAction ⟨none⟩,
   .codeAction ⟨some ⟨""⟩⟩]

/-- Provider state tracking `edA` with no outline yet. -/
def stA : ProviderState where
  activeEditor := some edA
  flutterOutline := none
  treeNodesByLine := LineMap.empty
  updateTimeout := none

/-- Provider state tracking `edA` with `noteA` stored. -/
def stReady : ProviderState where
  activeEditor := some edA
  flutterOutline := some noteA
  treeNodesByLine := LineMap.empty
  updateTimeout := none

def itemD : FlutterWidgetItem := FlutterWidgetItem.make none outlineChild2 []

def itemW : FlutterWidgetItem := FlutterWidgetItem.make none outlineChild1 []

/-- The first child's item as `getChildren` builds it from `stReady`. -/
def itemW1 : FlutterWidgetItem :=
  FlutterWidgetItem.make none outlineChild1 (childFixes oracleEx edA outlineChild1)

/-- Provider state whose per-line map stores `itemD` then `itemW` at
line 1. -/
def stSel : ProviderState where
  activeEditor := some edA
  flutterOutline := some noteA
  treeNodesByLine := fun l => if l = 1 then some [itemD, itemW] else none
  updateTimeout := none

/-- The element for the falsy-length check: its outline has children but
no length. -/
def elNoLen : FlutterWidgetItem := FlutterWidgetItem.make none outlineNoLen []

/-- Claim C4: the outline shown is synchronized to the active editor's
file — a flutter-outline notification whose file differs from the active
editor's document file name, or arriving when there is no active editor,
leaves the provider state (stored outline, per-line node map and pending
update timer) entirely unchanged. -/
theorem handleFlutterOutline_frame (t : Nat) (n : FlutterOutlineNotification)
    (st : ProviderState)
    (h : st.activeEditor = none ∨
      ∃ ed, st.activeEditor = some ed ∧ n.file ≠ ed.document.fileName) :
    handleFlutterOutline t n st = st := by
  rcases h with h | ⟨ed, hed, hne⟩
  · simp [handleFlutterOutline, h]
  · simp [handleFlutterOutline, hed, hne]

theorem handleFlutterOutline_frame_witness :
    handleFlutterOutline 3 noteB stA = stA :=
  handleFlutterOutline_frame 3 noteB stA (Or.inr ⟨edA, rfl, by decide⟩)

/-- Claim C8: for every outline node whose `length` is absent or `0`,
`getChildren` returns the empty list (and leaves the state unchanged) even
when the node's children array is non-empty, because the guard tests the
node's source length. -/
theorem getChildren_falsy_length (oracle : FixOracle) (st : ProviderState)
    (el : FlutterWidgetItem) (cs : List FlutterOutline)
    (hch : el.outline.children = some cs) (_hne : cs ≠ [])
    (hlen : el.outline.length = none ∨ el.outline.length = some 0) :
    getChildren oracle st (some el) = ([], st) := by
  rcases hlen with hlen | hlen <;> simp [getChildren, hch, hlen, truthyNum]

theorem getChildren_falsy_length_witness :
    getChildren oracleEx stA (some elNoLen) = ([], stA) :=
  getChildren_falsy_length oracleEx stA elNoLen [outlineChild1] rfl
    (List.cons_ne_nil _ _) (Or.inl rfl)

/-- Claim C5: the deferred update hides the tree (context key `false`) and
fires no event exactly when there is no stored outline, no active editor,
a file mismatch, or an outline root with no children; otherwise it shows
the tree (context key `true`) and fires one change event for the whole
tree. -/
theorem update_hide_iff (st : ProviderState) :
    (update st = ⟨false, []⟩ ↔ updateHides st) ∧
    (¬ updateHides st → update st = ⟨true, [none]⟩) := by
  obtain ⟨ae, fo, m, ut⟩ := st
  cases fo with
  | none =>
    cases ae with
    | none =>
      refine ⟨?_, ?_⟩
      · simp [update, updateHides]
      · intro h; exact absurd (Or.inl rfl) h
    | some ed =>
      refine ⟨?_, ?_⟩
      · simp [update, updateHides]
      · intro h; exact absurd (Or.inl rfl) h
  | some n =>
    cases ae with
    | none =>
      refine ⟨?_, ?_⟩
      · simp [update, updateHides]
      · intro h; exact absurd (Or.inr (Or.inl rfl)) h
    | some ed =>
      by_cases hf : n.file = ed.document.fileName
      · cases hch : n.outline.children with
        | none =>
          refine ⟨?_, ?_⟩
          · simp [update, updateHides, hf, hch]
          · intro h
            exact absurd (Or.inr (Or.inr ⟨n, ed, rfl, rfl, Or.inr (Or.inl hch)⟩)) h
        | some cs =>
          cases cs with
          | nil =>
            refine ⟨?_, ?_⟩
            · simp [update, updateHides, hf, hch]
            · intro h
              exact absurd
                (Or.inr (Or.inr ⟨n, ed, rfl, rfl, Or.inr (Or.inr hch)⟩)) h
          | cons c cs' =>
            refine ⟨?_, ?_⟩
            · simp [update, updateHides, hf, hch]
            · intro h; simp [update, hf, hch]
      · refine ⟨?_, ?_⟩
        · simp [update, updateHides, hf]
        · intro h
          exact absurd (Or.inr (Or.inr ⟨n, ed, rfl, rfl, Or.inl hf⟩)) h

theorem update_hide_iff_witness : update stReady = ⟨true, [none]⟩ :=
  (update_hide_iff stReady).2 (by
    simp [updateHides, stReady, noteA, outlineRoot, edA, docA,
      FlutterOutline.children])

/-- Claim C3 (counterexample): at the concrete valid state `stReady` the
deferred update fires its change event with no element — the whole-tree
sentinel — so it is not the case that the fired events target specific
subtree nodes; the view is refreshed wholesale, not by incremental
diffing. -/
theorem update_incremental_cex :
    ¬ (∀ e ∈ (update stReady).firedEvents, e ≠ none) := by
  intro h
  exact h none
    (by simp [update, stReady, noteA, outlineRoot, edA, docA,
      FlutterOutline.children]) rfl

/-- Claim C3 (amended): when an outline notification is processed, the
deferred update either fires nothing (hide) or fires exactly one change
event carrying no element, upon which the host discards and rebuilds the
entire tree by re-querying children; the provider never fires a
node-targeted (incremental) change event. -/
theorem update_fires_whole_tree_only (st : ProviderState) :
    (update st).firedEvents = [] ∨ (update st).firedEvents = [none] := by
  obtain ⟨ae, fo, m, ut⟩ := st
  cases fo with
  | none => cases ae <;> exact Or.inl rfl
  | some n =>
    cases ae with
    | none => exact Or.inl rfl
    | some ed =>
      by_cases hf : n.file = ed.document.fileName
      · cases hch : n.outline.children with
        | none => exact Or.inl (by simp [update, hf, hch])
        | some cs =>
          cases cs with
          | nil => exact Or.inl (by simp [update, hf, hch])
          | cons c cs' => exact Or.inr (by simp [update, hf, hch])
      · exact Or.inl (by simp [update, hf])

/-- Claim C2: notification handling is debounced — every notification of a
burst matching the active editor's file replaces the stored outline,
clears the per-line map and reschedules the single pending update, so
after the whole burst the provider holds exactly the last notification of
the burst, an empty map, and one update scheduled 200 ms after the last
notification's arrival time. -/
theorem handleBurst_debounce (ed : TextEditor)
    (lastP : Nat × FlutterOutlineNotification) :
    ∀ (burst : List (Nat × FlutterOutlineNotification)) (st : ProviderState),
      st.activeEditor = some ed →
      (∀ q ∈ burst, q.2.file = ed.document.fileName) →
      burst.getLast? = some lastP →
      handleBurst st burst =
        { st with
          flutterOutline := some lastP.2
          treeNodesByLine := LineMap.empty
          updateTimeout := some (lastP.1 + 200) } := by
  intro burst
  induction burst with
  | nil => intro st hed hall hlast; simp at hlast
  | cons p rest ih =>
    intro st hed hall hlast
    have hp : p.2.file = ed.document.fileName := hall p (List.mem_cons_self p rest)
    have hstep : handleFlutterOutline p.1 p.2 st =
        { st with
          flutterOutline := some p.2
          treeNodesByLine := LineMap.empty
          updateTimeout := some (p.1 + 200) } := by
      simp [handleFlutterOutline, hed, hp]
    have hunfold : handleBurst st (p :: rest) =
        handleBurst (handleFlutterOutline p.1 p.2 st) rest := rfl
    cases rest with
    | nil =>
      have hlp : p = lastP := by simpa using hlast
      subst hlp
      rw [hunfold, hstep]
      rfl
    | cons q rest2 =>
      rw [hunfold, hstep,
        ih { st with
              flutterOutline := some p.2
              treeNodesByLine := LineMap.empty
              updateTimeout := some (p.1 + 200) } hed
          (fun r hr => hall r (List.mem_cons_of_mem _ hr))
          (by simpa using hlast)]

theorem handleBurst_debounce_witness :
    handleBurst stA [(0, noteA), (7, noteA2)] =
      { stA with
        flutterOutline := some noteA2
        treeNodesByLine := LineMap.empty
        updateTimeout := some 207 } :=
  handleBurst_debounce edA (7, noteA2) [(0, noteA), (7, noteA2)] stA rfl
    (by decide) rfl

/-- Every item built by the children loop carries the element it was built
under as its parent. -/
theorem buildChildren_parent (oracle : FixOracle) (editor : Option TextEditor)
    (element : Option FlutterWidgetItem) :
    ∀ (cs : List FlutterOutline) (m : LineMap) (item : FlutterWidgetItem),
      item ∈ (buildChildren oracle editor element m cs).1 →
      item.parent = element := by
  intro cs
  induction cs with
  | nil => intro m item h; simp [buildChildren] at h
  | cons c rest ih =>
    intro m item h
    cases editor with
    | none => exact ih m item (by simpa [buildChildren] using h)
    | some ed =>
      by_cases hcl : ed.document.isClosed
      · exact ih m item (by simpa [buildChildren, hcl] using h)
      · simp only [buildChildren, hcl, if_neg, Bool.false_eq_true,
          not_false_iff, ite_false] at h
        rcases List.mem_cons.mp h with h | h
        · subst h; rfl
        · exact ih _ item h

/-- Claim C9: parent round-trip — `getParent` on any item returned by
`getChildren element` is exactly `element`; in particular items produced
with no element (top-level items) have the undefined (`none`) root as
parent. -/
theorem getChildren_getParent_roundtrip (oracle : FixOracle)
    (st : ProviderState) (element : Option FlutterWidgetItem)
    (item : FlutterWidgetItem)
    (h : item ∈ (getChildren oracle st element).1) :
    getParent item = element := by
  cases element with
  | some el =>
    cases hch : el.outline.children with
    | none => simp [getChildren, hch] at h
    | some cs =>
      by_cases hl : truthyNum el.outline.length
      · simp only [getChildren, hch, hl, ite_true] at h
        exact buildChildren_parent oracle st.activeEditor (some el) cs
          st.treeNodesByLine item h
      · simp [getChildren, hch, hl] at h
  | none =>
    cases hfo : st.flutterOutline with
    | none => simp [getChildren, hfo] at h
    | some n =>
      cases hch : n.outline.children with
      | none => simp [getChildren, hfo, hch] at h
      | some cs =>
        by_cases hl : truthyNum n.outline.length
        · simp only [getChildren, hfo, hl, hch, ite_true] at h
          exact buildChildren_parent oracle st.activeEditor none cs
            st.treeNodesByLine item h
        · simp [getChildren, hfo, hch, hl] at h

theorem getChildren_getParent_roundtrip_witness : getParent itemW1 = none :=
  getChildren_getParent_roundtrip oracleEx stReady none itemW1
    (List.mem_cons_self _ _)

/-- Every item built by the children loop under an editor carries exactly
the filtered fixes computed for its own outline node. -/
theorem buildChildren_fixes (oracle : FixOracle) (ed : TextEditor)
    (element : Option FlutterWidgetItem) :
    ∀ (cs : List FlutterOutline) (m : LineMap) (item : FlutterWidgetItem),
      item ∈ (buildChildren oracle (some ed) element m cs).1 →
      item.fixes = childFixes oracle ed item.outline := by
  intro cs
  induction cs with
  | nil => intro m item h; simp [buildChildren] at h
  | cons c rest ih =>
    intro m item h
    by_cases hcl : ed.document.isClosed
    · exact ih m item (by simpa [buildChildren, hcl] using h)
    · simp only [buildChildren, hcl, Bool.false_eq_true, not_false_iff,
        ite_false] at h
      rcases List.mem_cons.mp h with h | h
      · subst h; rfl
      · exact ih _ item h

/-- Claim C7: quick-fix wiring — a node of kind `DART_ELEMENT` gets the
empty fixes list; for any other kind the fixes are exactly the
code-action-provider results at the zero-length range at the node's
offset, restricted to `CodeAction` instances whose kind value is
non-empty; and every item `getChildren` creates carries exactly those
filtered fixes for its node. -/
theorem childFixes_spec (oracle : FixOracle) (ed : TextEditor)
    (c : FlutterOutline) :
    (c.kind = "DART_ELEMENT" → childFixes oracle ed c = []) ∧
    (c.kind ≠ "DART_ELEMENT" →
      childFixes oracle ed c =
        ((oracle ⟨ed.document.positionAt c.offset,
            ed.document.positionAt c.offset⟩).filterMap asCodeAction).filter
          truthyKind) ∧
    (∀ (st : ProviderState) (element : Option FlutterWidgetItem)
        (item : FlutterWidgetItem),
      st.activeEditor = some ed →
      item ∈ (getChildren oracle st element).1 →
      item.fixes = childFixes oracle ed item.outline) := by
  refine ⟨?_, ?_, ?_⟩
  · intro hk
    simp [childFixes, isWidget, hk]
  · intro hk
    simp [childFixes, isWidget, hk, getFixes]
  · intro st element item hed h
    cases element with
    | some el =>
      cases hch : el.outline.children with
      | none => simp [getChildren, hch] at h
      | some cs =>
        by_cases hl : truthyNum el.outline.length
        · simp only [getChildren, hch, hl, ite_true] at h
          rw [hed] at h
          exact buildChildren_fixes oracle ed (some el) cs
            st.treeNodesByLine item h
        · simp [getChildren, hch, hl] at h
    | none =>
      cases hfo : st.flutterOutline with
      | none => simp [getChildren, hfo] at h
      | some n =>
        cases hch : n.outline.children with
        | none => simp [getChildren, hfo, hch] at h
        | some cs =>
          by_cases hl : truthyNum n.outline.length
          · simp only [getChildren, hfo, hl, hch, ite_true] at h
            rw [hed] at h
            exact buildChildren_fixes oracle ed none cs
              st.treeNodesByLine item h
          · simp [getChildren, hfo, hch, hl] at h

theorem childFixes_spec_witness :
    childFixes oracleEx edA outlineChild2 = [] :=
  (childFixes_spec oracleEx edA outlineChild2).1 rfl

/-- With no editor the children loop records nothing and leaves the
per-line map untouched. -/
theorem buildChildren_no_editor (oracle : FixOracle)
    (element : Option FlutterWidgetItem) :
    ∀ (cs : List FlutterOutline) (m : LineMap),
      buildChildren oracle none element m cs = ([], m) := by
  intro cs
  induction cs with
  | nil => intro m; rfl
  | cons c rest ih => intro m; simpa [buildChildren] using ih m

/-- The children loop preserves the per-line placement property of the
map: it only pushes each new item at the line of its own offset. -/
theorem buildChildren_lineMap (oracle : FixOracle) (ed : TextEditor)
    (element : Option FlutterWidgetItem) :
    ∀ (cs : List FlutterOutline) (m : LineMap),
      (∀ L items, m L = some items → ∀ item ∈ items,
        (ed.document.positionAt item.outline.offset).line = L) →
      ∀ L items, (buildChildren oracle (some ed) element m cs).2 L = some items →
        ∀ item ∈ items,
          (ed.document.positionAt item.outline.offset).line = L := by
  intro cs
  induction cs with
  | nil => intro m hm L items h item hmem; exact hm L items h item hmem
  | cons c rest ih =>
    intro m hm L items h item hmem
    by_cases hcl : ed.document.isClosed
    · refine ih m hm L items ?_ item hmem
      simpa [buildChildren, hcl] using h
    · refine ih (m.push ((ed.document.positionAt c.offset).line)
        (FlutterWidgetItem.make element c (childFixes oracle ed c))) ?_
        L items ?_ item hmem
      · intro L' items' h' item' hmem'
        by_cases hL' : L' = (ed.document.positionAt c.offset).line
        · subst hL'
          have h2 : (m ((ed.document.positionAt c.offset).line)).getD []
              ++ [FlutterWidgetItem.make element c (childFixes oracle ed c)]
              = items' := by
            simpa [LineMap.push] using h'
          rcases List.mem_append.mp (h2 ▸ hmem') with hmem2 | hmem2
          · cases hold : m ((ed.document.positionAt c.offset).line) with
            | none => simp [hold] at hmem2
            | some old =>
              exact hm _ old hold item' (by simpa [hold] using hmem2)
          · have hi : item' = FlutterWidgetItem.make element c
                (childFixes oracle ed c) := by
              simpa using hmem2
            subst hi
            rfl
        · refine hm L' items' ?_ item' hmem'
          simpa [LineMap.push, hL'] using h'
      · simpa [buildChildren, hcl] using h

/-- The notification handler preserves the per-line map invariant: it
either leaves the state unchanged or resets the map to empty. -/
theorem handleFlutterOutline_invariant (t : Nat)
    (n : FlutterOutlineNotification) (st : ProviderState)
    (hinv : lineMapInvariant st) :
    lineMapInvariant (handleFlutterOutline t n st) := by
  cases hae : st.activeEditor with
  | none => simpa [handleFlutterOutline, hae] using hinv
  | some ed =>
    by_cases hf : n.file = ed.document.fileName
    · intro L items hL
      simp [handleFlutterOutline, hae, hf, LineMap.empty] at hL
    · simpa [handleFlutterOutline, hae, hf] using hinv

/-- A children query preserves the per-line map invariant. -/
theorem getChildren_invariant (oracle : FixOracle) (st : ProviderState)
    (element : Option FlutterWidgetItem) (hinv : lineMapInvariant st) :
    lineMapInvariant (getChildren oracle st element).2 := by
  have hbuild : ∀ (cs : List FlutterOutline),
      lineMapInvariant
        { st with treeNodesByLine :=
            (buildChildren oracle st.activeEditor element st.treeNodesByLine cs).2 } := by
    intro cs
    cases hae : st.activeEditor with
    | none =>
      intro L items h item hmem
      simp only [buildChildren_no_editor] at h
      obtain ⟨ed', hed', hline⟩ := hinv L items h item hmem
      rw [hae] at hed'
      exact Option.noConfusion hed'
    | some ed =>
      intro L items h item hmem
      have h2 : (buildChildren oracle (some ed) element st.treeNodesByLine cs).2
          L = some items := h
      refine ⟨ed, rfl, ?_⟩
      refine buildChildren_lineMap oracle ed element cs st.treeNodesByLine
        ?_ L items h2 item hmem
      intro L0 items0 h0 item0 hmem0
      obtain ⟨ed', hed', hline⟩ := hinv L0 items0 h0 item0 hmem0
      have he : ed' = ed := by
        rw [hae] at hed'
        exact (Option.some.inj hed').symm
      exact he ▸ hline
  cases element with
  | some el =>
    cases hch : el.outline.children with
    | none => simpa [getChildren, hch] using hinv
    | some cs =>
      by_cases hl : truthyNum el.outline.length
      · simpa only [getChildren, hch, hl, ite_true] using hbuild cs
      · simpa [getChildren, hch, hl] using hinv
  | none =>
    cases hfo : st.flutterOutline with
    | none => simpa [getChildren, hfo] using hinv
    | some n =>
      cases hch : n.outline.children with
      | none => simpa [getChildren, hfo, hch] using hinv
      | some cs =>
        by_cases hl : truthyNum n.outline.length
        · simpa only [getChildren, hfo, hch, hl, ite_true] using hbuild cs
        · simpa [getChildren, hfo, hch, hl] using hinv

/-- Any interleaving of notifications and children queries preserves the
per-line map invariant. -/
theorem applyEvents_invariant (oracle : FixOracle) :
    ∀ (es : List OutlineEvent) (st : ProviderState),
      lineMapInvariant st → lineMapInvariant (applyEvents oracle st es) := by
  intro es
  induction es with
  | nil => intro st h; exact h
  | cons e rest ih =>
    intro st h
    refine ih (applyEvent oracle st e) ?_
    cases e with
    | notify t n => exact handleFlutterOutline_invariant t n st h
    | childrenQuery el => exact getChildren_invariant oracle st el h

/-- Claim C10: after any sequence of notification handling and children
queries, every item stored under key `L` of the per-line map sits on line
`L` of the active editor's document; and accepting a notification for the
active file resets the map to empty, so it never retains nodes from a
superseded outline. -/
theorem lineMap_invariant_and_reset (oracle : FixOracle) (st : ProviderState)
    (es : List OutlineEvent) (hinv : lineMapInvariant st) :
    lineMapInvariant (applyEvents oracle st es) ∧
    (∀ (t : Nat) (n : FlutterOutlineNotification) (ed : TextEditor),
      st.activeEditor = some ed → n.file = ed.document.fileName →
      (handleFlutterOutline t n st).treeNodesByLine = LineMap.empty) := by
  refine ⟨applyEvents_invariant oracle es st hinv, ?_⟩
  intro t n ed hed hf
  simp [handleFlutterOutline, hed, hf]

theorem lineMap_invariant_and_reset_witness :
    lineMapInvariant (applyEvents oracleEx stA
      [.notify 0 noteA, .childrenQuery none]) :=
  (lineMap_invariant_and_reset oracleEx stA
      [.notify 0 noteA, .childrenQuery none]
      (fun L items h => absurd h (by simp [stA, LineMap.empty]))).1

/-- The source's containment test (whose `NaN` comparison rejects items
with an absent length) agrees with the specification's strict-containment
formula. -/
theorem strictlyContains_eq (o : FlutterOutline) (off : Nat) :
    strictlyContainsOffset o off = containsStrictly o off := by
  cases ho : o.length with
  | none =>
    simp only [strictlyContainsOffset, containsStrictly, ho, Option.getD_none,
      Nat.add_zero, Bool.and_false]
    by_cases h : o.offset < off <;> simp [h] <;> omega
  | some len =>
    simp [strictlyContainsOffset, containsStrictly, ho]

/-- Claim C1: on a selection change with a non-empty selection list, the
provider looks up the line of the first selection's start: with no map
entry for that line nothing is revealed; with an entry, the first stored
node whose outline range strictly contains the cursor offset is revealed,
and when no stored node strictly contains the offset (in particular at a
node's first or one-past-last offset, excluded by the strict
inequalities) nothing is revealed. -/
theorem selection_reveal_spec (st : ProviderState) (ed : TextEditor)
    (s : Selection) (rest : List Selection)
    (hed : st.activeEditor = some ed) :
    (st.treeNodesByLine s.start.line = none →
      handleSelectionChange st (s :: rest) = none) ∧
    (∀ items, st.treeNodesByLine s.start.line = some items →
      handleSelectionChange st (s :: rest) =
        items.find? (fun item =>
          containsStrictly item.outline (ed.document.offsetAt s.start))) ∧
    (∀ items, st.treeNodesByLine s.start.line = some items →
      (∀ item ∈ items,
        containsStrictly item.outline (ed.document.offsetAt s.start) = false) →
      handleSelectionChange st (s :: rest) = none) := by
  have hfun : (fun item : FlutterWidgetItem =>
        strictlyContainsOffset item.outline (ed.document.offsetAt s.start))
      = (fun item : FlutterWidgetItem =>
        containsStrictly item.outline (ed.document.offsetAt s.start)) :=
    funext fun item => strictlyContains_eq item.outline _
  refine ⟨?_, ?_, ?_⟩
  · intro h
    simp [handleSelectionChange, highlightNodeAt, h]
  · intro items h
    simp only [handleSelectionChange, highlightNodeAt, h, hed]
    rw [hfun]
  · intro items h hall
    simp only [handleSelectionChange, highlightNodeAt, h, hed]
    rw [hfun]
    exact List.find?_eq_none.mpr fun item hmem => by simp [hall item hmem]

theorem selection_reveal_spec_witness :
    handleSelectionChange stSel [⟨⟨1, 4⟩⟩] = some itemD := by
  rw [(selection_reveal_spec stSel edA ⟨⟨1, 4⟩⟩ [] rfl).2.1 [itemD, itemW] rfl]
  rfl

theorem data_space : (" " : String).data = [' '] := rfl

theorem data_empty : ("" : String).data = [] := rfl

theorem data_arrow_sep : (" → " : String).data = [' ', '→', ' '] := rfl

/-- Trimming ignores a leading space. -/
theorem trimCharList_cons_space (cs : List Char) :
    trimCharList (' ' :: cs) = trimCharList cs := by
  have hws : (' ').isWhitespace = true := by decide
  simp [trimCharList, List.dropWhile_cons, hws]

/-- Claim C6: for every outline node, the tree-item label concatenates, in
order and space-separated, the dart element's name followed directly by
its type parameters and parameters when present and by ` → ` plus its
return type when present, then the variable name, class name and label
fields when present, the result trimmed of surrounding whitespace (an
outline with none of these yields the empty label). -/
theorem getLabel_eq_spec (o : FlutterOutline) :
    FlutterWidgetItem.getLabel o = getLabelSpec o := by
  obtain ⟨k, off, len, de, vn, cn, lb, ch⟩ := o
  rcases de with _ | ⟨nm, tp, ps, rt⟩ <;>
    rcases vn with _ | vns <;>
    rcases cn with _ | cns <;>
    rcases lb with _ | lbs <;>
    simp only [FlutterWidgetItem.getLabel, getLabelSpec, labelParts,
      dartElementLabel, FlutterOutline.dartElement, FlutterOutline.variableName,
      FlutterOutline.className, FlutterOutline.label, jsTrim] <;>
    repeat' split
  all_goals
    refine congrArg String.mk ?_
    simp [String.data_append, data_space, data_empty, data_arrow_sep,
      joinSpaceSeparated, trimCharList_cons_space]

end FlutterOutlineView
